import Mathlib

/-!
Shallow embedding of the Scout rules engine (`src/engine.rs`), its two
legal-move enumerators (`src/search.rs` `MoveIter::next` and
`src/tree_builder.rs` `enumerate_legal_actions`), and the supporting
deck/classifier functions, together with theorems settling the frozen
claims about the natural-language specification.

Rust `u8` quantities that stay within their range under the engine's own
checks are embedded as `Nat`; the one place the source performs `u8`
arithmetic that can wrap (`build_deck`'s `max_num * (max_num - 1)`) is
embedded with an explicit `% 256`.  Scores (`i8` in the source) are
embedded as `Int`.
-/

namespace Scout

/-- Embeds `struct Card { first: u8, second: u8 }`. -/
structure Card where
  first : Nat
  second : Nat
deriving DecidableEq, Repr

/-- Embeds `enum Orientation { Larger, Smaller }`. -/
inductive Orientation where
  | Larger
  | Smaller
deriving DecidableEq, Repr

/-- Embeds `struct OrientedCard { card: Card, orientation: Orientation }`. -/
structure OrientedCard where
  card : Card
  orientation : Orientation
deriving DecidableEq, Repr

/-- Embeds `OrientedCard::top`. -/
def OrientedCard.top (c : OrientedCard) : Nat :=
  match c.orientation with
  | .Smaller => c.card.first
  | .Larger => c.card.second

/-- Embeds `OrientedCard::bottom`. -/
def OrientedCard.bottom (c : OrientedCard) : Nat :=
  match c.orientation with
  | .Smaller => c.card.second
  | .Larger => c.card.first

/-- Embeds `OrientedCard::flip`. -/
def OrientedCard.flip (c : OrientedCard) : OrientedCard :=
  { card := c.card,
    orientation := if c.orientation = Orientation.Larger then Orientation.Smaller
                   else Orientation.Larger }

/-- Embeds `enum CardSet { Consecutive(u8, u8), Same(u8, u8) }`. -/
inductive CardSet where
  /-- (Start, End), inclusive. -/
  | Consecutive (start stop : Nat)
  /-- (Number, Count). -/
  | Same (number count : Nat)
deriving DecidableEq, Repr

/-- Embeds the helper `num_cards` inside `impl PartialOrd for CardSet`. -/
def num_cards : CardSet → Nat
  | .Consecutive start stop => stop - start + 1
  | .Same _ count => count

/-- Embeds `CardSet::partial_cmp` (which is total on this type: every match
arm returns `Some`), as a total `Ordering`-valued comparison. -/
def CardSet.cmp (a b : CardSet) : Ordering :=
  if num_cards a ≠ num_cards b then
    compare (num_cards a) (num_cards b)
  else
    match a, b with
    | .Consecutive s_start _, .Consecutive o_start _ => compare s_start o_start
    | .Same s_num _, .Same o_num _ => compare s_num o_num
    | .Same _ _, .Consecutive _ _ => Ordering.gt
    | .Consecutive _ _, .Same _ _ => Ordering.lt

/-- The row-major pair enumeration of `build_deck`'s nested loop:
`i` from `1` to `max_num - 1`, `j` from `i + 1` to `max_num`. -/
def deck_pairs (max_num : Nat) : List Card :=
  (List.range' 1 (max_num - 1)).flatMap fun i =>
    (List.range' (i + 1) (max_num - i)).map fun j => { first := i, second := j }

/-- The `total_cards` value computed by `build_deck`:
`max_num * (max_num - 1) / 2 - (max_num * (max_num - 1) / 2 % 4)` in `u8`
arithmetic, so the product is reduced `% 256` (the later operations cannot
overflow). -/
def total_cards (max_num : Nat) : Nat :=
  max_num * (max_num - 1) % 256 / 2 - max_num * (max_num - 1) % 256 / 2 % 4

/-- Embeds `build_deck`: push pairs row-major, stopping once `count`
reaches `total_cards` (the labelled `break 'outer`). -/
def build_deck (max_num : Nat) : List Card :=
  (deck_pairs max_num).take (total_cards max_num)

/-- The adjacent-pair check inside `build_card_set`:
`vals[..len-1].zip(vals[1..]).all(|(a, b)| if ascending { a + 1 == b } else { a == b + 1 })`. -/
def adjacent_ok (ascending : Bool) : List Nat → Bool
  | [] => true
  | [_] => true
  | a :: b :: t =>
    (if ascending then a + 1 = b else a = b + 1) && adjacent_ok ascending (b :: t)

/-- Embeds `build_card_set`.  An empty slice yields `None`; a slice whose
top values are all equal yields `Same`; otherwise direction is read off the
first two values and every adjacent pair must differ by exactly one in that
direction, normalising `Consecutive` so the smaller value comes first.
(The single-element case always satisfies the all-equal check in the
source, so it is the `Same` branch.) -/
def build_card_set (to_play : List OrientedCard) : Option CardSet :=
  match to_play.map OrientedCard.top with
  | [] => none
  | [v] => some (.Same v 1)
  | v0 :: v1 :: rest =>
    let vals := v0 :: v1 :: rest
    if vals.all fun v => v = v0 then some (.Same v0 vals.length)
    else
      let ascending : Bool := v0 < v1
      if adjacent_ok ascending vals then
        let last := (v1 :: rest).getLastD v1
        if ascending then some (.Consecutive v0 last)
        else some (.Consecutive last v0)
      else none

/-- Embeds `enum IllegalMoveReason`. -/
inductive IllegalMoveReason where
  | GameComplete
  | BadHandIndex
  | MustChooseOrientation
  | DoesNotBeatBoard
  | InvalidSet
  | NoScoutTokens
  | ScoutWhenBoardEmpty
deriving DecidableEq, Repr

/-- Embeds `legal_and_beats_board` (`card_set > board_set` is
`partial_cmp == Some(Greater)`, i.e. `CardSet.cmp … = .gt`). -/
def legal_and_beats_board (board proposed_play : List OrientedCard) :
    Option IllegalMoveReason :=
  match build_card_set proposed_play, build_card_set board with
  | some card_set, some board_set =>
    if CardSet.cmp card_set board_set = Ordering.gt then none
    else some .DoesNotBeatBoard
  | some _, none => none
  | _, _ => some .InvalidSet

/-- Embeds `enum FlipHand`. -/
inductive FlipHand where
  | DoFlip
  | DoNotFlip
deriving DecidableEq, Repr

/-- Embeds `enum PickedCard`. -/
inductive PickedCard where
  | FirstCard
  | LastCard
deriving DecidableEq, Repr

/-- Embeds `enum Action`. -/
inductive Action where
  | ChooseOrientation (f : FlipHand)
  /-- start index (inclusive), end index (exclusive in the implementation). -/
  | PlayCards (start_idx end_idx : Nat)
  | PlayScoutToken (picked : PickedCard) (idx : Nat) (o : Orientation)
deriving DecidableEq, Repr

/-- Embeds `enum TransitionResult` (`i8` scores as `Int`). -/
inductive TransitionResult where
  | MoveAccepted
  | GameComplete (score_one score_two : Int)
  | IllegalMove (reason : IllegalMoveReason)
deriving DecidableEq, Repr

/-- Embeds `struct PublicState`. -/
structure PublicState where
  game_complete : Bool
  orientation_chosen : Bool
  is_player_one_turn : Bool
  board : List OrientedCard
  player_one_card_count : Nat
  player_two_card_count : Nat
  player_one_scout_token_count : Nat
  player_two_scout_token_count : Nat
  player_one_won_cards : Nat
  player_two_won_cards : Nat
  action_history : List (Bool × Action × TransitionResult)
deriving DecidableEq, Repr

/-- Embeds `struct PlayerHiddenState`. -/
structure PlayerHiddenState where
  hand : List OrientedCard
deriving DecidableEq, Repr

/-- Embeds `struct GameState`. -/
structure GameState where
  public_state : PublicState
  player_one_hidden_state : PlayerHiddenState
  player_two_hidden_state : PlayerHiddenState
deriving DecidableEq, Repr

/-- Embeds `GameState::new_from_hands`. -/
def new_from_hands (player_one_hand player_two_hand : List OrientedCard)
    (scout_tokens : Nat) : GameState :=
  { public_state :=
      { game_complete := false
        orientation_chosen := false
        is_player_one_turn := true
        board := []
        player_one_card_count := player_one_hand.length
        player_two_card_count := player_two_hand.length
        player_one_scout_token_count := scout_tokens
        player_two_scout_token_count := scout_tokens
        player_one_won_cards := 0
        player_two_won_cards := 0
        action_history := [] }
    player_one_hidden_state := { hand := player_one_hand }
    player_two_hidden_state := { hand := player_two_hand } }

/-- Embeds `GameState::handle_orientation_action`. -/
def handle_orientation_action (s : GameState) (do_flip : FlipHand) :
    GameState × TransitionResult :=
  if s.public_state.is_player_one_turn then
    let hand := match do_flip with
      | .DoFlip => s.player_one_hidden_state.hand.map OrientedCard.flip
      | .DoNotFlip => s.player_one_hidden_state.hand
    ({ s with
        player_one_hidden_state := { hand := hand }
        public_state := { s.public_state with is_player_one_turn := false } },
      .MoveAccepted)
  else
    let hand := match do_flip with
      | .DoFlip => s.player_two_hidden_state.hand.map OrientedCard.flip
      | .DoNotFlip => s.player_two_hidden_state.hand
    ({ s with
        player_two_hidden_state := { hand := hand }
        public_state := { s.public_state with
          is_player_one_turn := true
          orientation_chosen := true } },
      .MoveAccepted)

/-- Embeds `GameState::build_game_complete`. -/
def build_game_complete (s : GameState) (player_one_scores : Bool) :
    TransitionResult :=
  if player_one_scores then
    .GameComplete
      ((s.public_state.player_one_won_cards : Int)
        + (s.public_state.player_one_scout_token_count : Int))
      ((s.public_state.player_two_won_cards : Int)
        - (s.public_state.player_two_card_count : Int)
        + (s.public_state.player_two_scout_token_count : Int))
  else
    .GameComplete
      ((s.public_state.player_one_won_cards : Int)
        - (s.public_state.player_one_card_count : Int)
        + (s.public_state.player_one_scout_token_count : Int))
      ((s.public_state.player_two_won_cards : Int)
        + (s.public_state.player_two_scout_token_count : Int))

/-- Embeds `slice::windows(n)`: the contiguous length-`n` sub-slices. -/
def windows (n : Nat) (l : List OrientedCard) : List (List OrientedCard) :=
  (List.range (l.length + 1 - n)).map fun i => (l.drop i).take n

/-- Embeds `GameState::has_legal_play`:
`(1..=hand.len()).any(|w| hand.windows(w).any(|v| legal_and_beats_board(board, v).is_none()))`. -/
def has_legal_play (s : GameState) (check_player_one : Bool) : Bool :=
  let hand := if check_player_one then s.player_one_hidden_state.hand
              else s.player_two_hidden_state.hand
  (List.range' 1 hand.length).any fun window_size =>
    (windows window_size hand).any fun window =>
      (legal_and_beats_board s.public_state.board window).isNone

/-- Embeds `GameState::accept_or_complete`. -/
def accept_or_complete (s : GameState) : TransitionResult :=
  if s.public_state.player_one_card_count = 0 then
    build_game_complete s true
  else if s.public_state.player_two_card_count = 0 then
    build_game_complete s false
  else if s.public_state.is_player_one_turn
      ∧ s.public_state.player_one_scout_token_count = 0
      ∧ ¬ has_legal_play s true then
    build_game_complete s false
  else if ¬ s.public_state.is_player_one_turn
      ∧ s.public_state.player_two_scout_token_count = 0
      ∧ ¬ has_legal_play s false then
    build_game_complete s true
  else
    .MoveAccepted

/-- Embeds `GameState::handle_play_card_action`. -/
def handle_play_card_action (s : GameState) (start_idx end_idx : Nat) :
    GameState × TransitionResult :=
  if ¬ s.public_state.orientation_chosen then
    (s, .IllegalMove .MustChooseOrientation)
  else if start_idx ≥ end_idx then
    (s, .IllegalMove .BadHandIndex)
  else
    let hand := if s.public_state.is_player_one_turn then
        s.player_one_hidden_state.hand
      else
        s.player_two_hidden_state.hand
    if end_idx > hand.length then
      (s, .IllegalMove .BadHandIndex)
    else
      let proposed_play := (hand.drop start_idx).take (end_idx - start_idx)
      match legal_and_beats_board s.public_state.board proposed_play with
      | some illegal_move => (s, .IllegalMove illegal_move)
      | none =>
        let board_len := s.public_state.board.length
        let s1 :=
          if s.public_state.is_player_one_turn then
            { s with
                public_state := { s.public_state with
                  player_one_card_count :=
                    s.public_state.player_one_card_count - proposed_play.length
                  player_one_won_cards :=
                    s.public_state.player_one_won_cards + board_len
                  board := proposed_play
                  is_player_one_turn := false }
                player_one_hidden_state :=
                  { hand := hand.take start_idx ++ hand.drop end_idx } }
          else
            { s with
                public_state := { s.public_state with
                  player_two_card_count :=
                    s.public_state.player_two_card_count - proposed_play.length
                  player_two_won_cards :=
                    s.public_state.player_two_won_cards + board_len
                  board := proposed_play
                  is_player_one_turn := true }
                player_two_hidden_state :=
                  { hand := hand.take start_idx ++ hand.drop end_idx } }
        (s1, accept_or_complete s1)

/-- The mutation part of `GameState::handle_play_scout_token`, after the
orientation and token checks have passed for the acting player. -/
def scout_after_token_check (s : GameState) (player_one : Bool)
    (picked_card : PickedCard) (insertion_index : Nat) (orientation : Orientation) :
    GameState × TransitionResult :=
  let hand := if player_one then s.player_one_hidden_state.hand
              else s.player_two_hidden_state.hand
  if insertion_index > hand.length then
    (s, .IllegalMove .BadHandIndex)
  else
    match s.public_state.board with
    | [] => (s, .IllegalMove .ScoutWhenBoardEmpty)
    | b :: bs =>
      let oriented_card := match picked_card with
        | .FirstCard => b
        | .LastCard => bs.getLastD b
      let board1 := match picked_card with
        | .FirstCard => bs
        | .LastCard => (b :: bs).dropLast
      let hand1 := hand.insertIdx insertion_index
        { card := oriented_card.card, orientation := orientation }
      let s1 :=
        if player_one then
          { s with
              public_state := { s.public_state with
                board := board1
                player_one_scout_token_count :=
                  s.public_state.player_one_scout_token_count - 1
                player_one_card_count :=
                  s.public_state.player_one_card_count + 1 }
              player_one_hidden_state := { hand := hand1 } }
        else
          { s with
              public_state := { s.public_state with
                board := board1
                player_two_scout_token_count :=
                  s.public_state.player_two_scout_token_count - 1
                player_two_card_count :=
                  s.public_state.player_two_card_count + 1 }
              player_two_hidden_state := { hand := hand1 } }
      (s1, accept_or_complete s1)

/-- Embeds `GameState::handle_play_scout_token`. -/
def handle_play_scout_token (s : GameState)
    (picked_card : PickedCard) (insertion_index : Nat) (orientation : Orientation) :
    GameState × TransitionResult :=
  if ¬ s.public_state.orientation_chosen then
    (s, .IllegalMove .MustChooseOrientation)
  else if s.public_state.is_player_one_turn then
    if s.public_state.player_one_scout_token_count = 0 then
      (s, .IllegalMove .NoScoutTokens)
    else
      scout_after_token_check s true picked_card insertion_index orientation
  else
    if s.public_state.player_two_scout_token_count = 0 then
      (s, .IllegalMove .NoScoutTokens)
    else
      scout_after_token_check s false picked_card insertion_index orientation

/-- The action dispatch inside `GameState::transition` ("Three choices for
the enum"). -/
def handle_action (s : GameState) : Action → GameState × TransitionResult
  | .ChooseOrientation do_flip => handle_orientation_action s do_flip
  | .PlayCards start_idx end_idx => handle_play_card_action s start_idx end_idx
  | .PlayScoutToken picked idx o => handle_play_scout_token s picked idx o

/-- The `match result` block at the end of `GameState::transition`: a
terminal result sets `game_complete` and logs, an accepted result logs,
an illegal result changes nothing.  The logged turn flag is
`self.public_state.is_player_one_turn` *after* the handler ran (the
source pushes after mutating `self`). -/
def log_push (action : Action) :
    GameState × TransitionResult → GameState × TransitionResult
  | (s1, .GameComplete a b) =>
    ({ s1 with public_state := { s1.public_state with
          game_complete := true
          action_history := s1.public_state.action_history
            ++ [(s1.public_state.is_player_one_turn, action, .GameComplete a b)] } },
      .GameComplete a b)
  | (s1, .MoveAccepted) =>
    ({ s1 with public_state := { s1.public_state with
          action_history := s1.public_state.action_history
            ++ [(s1.public_state.is_player_one_turn, action, .MoveAccepted)] } },
      .MoveAccepted)
  | (s1, .IllegalMove r) => (s1, .IllegalMove r)

/-- Embeds `GameState::transition`. -/
def transition (s : GameState) (action : Action) : GameState × TransitionResult :=
  if s.public_state.game_complete then
    (s, .IllegalMove .GameComplete)
  else
    log_push action (handle_action s action)

/-- The acting player's hand (what `walk_games` passes to `MoveIter::new`,
and what `enumerate_legal_actions` selects by `is_player_one_turn`). -/
def acting_hand (s : GameState) : List OrientedCard :=
  if s.public_state.is_player_one_turn then s.player_one_hidden_state.hand
  else s.player_two_hidden_state.hand

/-- The acting player's scout-token count. -/
def acting_tokens (s : GameState) : Nat :=
  if s.public_state.is_player_one_turn then
    s.public_state.player_one_scout_token_count
  else
    s.public_state.player_two_scout_token_count

/-- The `PlayCards` sub-enumeration shared by both enumerators:
`start` over `0..hand.len()`, `end` over `start+1..=hand.len()`, keeping the
ranges whose slice passes `legal_and_beats_board`.  Both the `MoveIter`
nested `while` loops and the `enumerate_legal_actions` nested `for` loops
produce exactly this list, in this order. -/
def play_cards_actions (board hand : List OrientedCard) : List Action :=
  (List.range hand.length).flatMap fun start_idx =>
    (List.range' (start_idx + 1) (hand.length - start_idx)).filterMap fun end_idx =>
      if (legal_and_beats_board board
            ((hand.drop start_idx).take (end_idx - start_idx))).isNone then
        some (.PlayCards start_idx end_idx)
      else none

/-- The scout sub-enumeration of `enumerate_legal_actions`: for every
insertion index `0..=hand.len()`, both orientations of taking the first
card, and, when the board holds more than one card, both orientations of
taking the last card. -/
def enumerate_scout_actions (board_len hand_len : Nat) : List Action :=
  (List.range (hand_len + 1)).flatMap fun insertion_idx =>
    [Action.PlayScoutToken .FirstCard insertion_idx .Larger,
     Action.PlayScoutToken .FirstCard insertion_idx .Smaller]
    ++ (if board_len > 1 then
          [Action.PlayScoutToken .LastCard insertion_idx .Larger,
           Action.PlayScoutToken .LastCard insertion_idx .Smaller]
        else [])

/-- Embeds `enumerate_legal_actions` (`tree_builder.rs`). -/
def enumerate_legal_actions (s : GameState) : List Action :=
  if s.public_state.game_complete then []
  else if ¬ s.public_state.orientation_chosen then
    [.ChooseOrientation .DoFlip, .ChooseOrientation .DoNotFlip]
  else
    let hand := acting_hand s
    let has_tokens := acting_tokens s > 0
    play_cards_actions s.public_state.board hand
    ++ (if has_tokens ∧ s.public_state.board ≠ [] then
          enumerate_scout_actions s.public_state.board.length hand.length
        else [])

/-- The scout sub-sequence yielded by `MoveIter::next` (`search.rs`):
positions `0..hand.len()`, one action per position depending on
`to_scout_idx % 4`; the second `% 4 == 2` arm of the source is kept
verbatim — it is unreachable because its condition duplicates the arm
before it, and `% 4 == 3` yields nothing. -/
def move_iter_scout_actions (board_len hand_len : Nat) : List Action :=
  (List.range hand_len).filterMap fun to_scout_idx =>
    if to_scout_idx % 4 = 0 then
      some (.PlayScoutToken .FirstCard to_scout_idx .Larger)
    else if to_scout_idx % 4 = 1 then
      some (.PlayScoutToken .FirstCard to_scout_idx .Smaller)
    else if to_scout_idx % 4 = 2 ∧ board_len > 1 then
      some (.PlayScoutToken .LastCard to_scout_idx .Larger)
    else if to_scout_idx % 4 = 2 ∧ board_len > 1 then
      some (.PlayScoutToken .LastCard to_scout_idx .Smaller)
    else none

/-- The full sequence of actions yielded by repeatedly calling
`MoveIter::next` on `(public_state, hidden_state)` until it returns
`None`: nothing when the game is complete; the two orientation choices
while orientation is unchosen; otherwise all accepted `PlayCards` ranges
followed, when the acting player has tokens and the board is non-empty,
by the `% 4`-filtered scout actions. -/
def move_iter_actions (s : GameState) : List Action :=
  if s.public_state.game_complete then []
  else if ¬ s.public_state.orientation_chosen then
    [.ChooseOrientation .DoFlip, .ChooseOrientation .DoNotFlip]
  else
    let hand := acting_hand s
    let num_tokens := acting_tokens s
    play_cards_actions s.public_state.board hand
    ++ (if num_tokens = 0 ∨ s.public_state.board.length = 0 then []
        else move_iter_scout_actions s.public_state.board.length hand.length)

/-! ## Derived notions used by the claims -/

/-- The conserved card count of claim C8:
`hand_one.len() + hand_two.len() + board.len() + won_one + won_two`. -/
def card_inv (s : GameState) : Nat :=
  s.player_one_hidden_state.hand.length + s.player_two_hidden_state.hand.length
    + s.public_state.board.length + s.public_state.player_one_won_cards
    + s.public_state.player_two_won_cards

/-- Folds a sequence of `transition` calls, keeping the resulting states. -/
def run_actions (s : GameState) (acts : List Action) : GameState :=
  acts.foldl (fun st a => (transition st a).1) s

/-- Remaining orientation sub-turns: two before player one has chosen, one
before player two has chosen, none afterwards. -/
def orientation_steps (s : GameState) : Nat :=
  if s.public_state.orientation_chosen then 0
  else if s.public_state.is_player_one_turn then 2 else 1

/-- Termination measure for the exhaustive search (claim C9): twice the
remaining scout tokens plus the remaining hand cards plus the remaining
orientation sub-turns.  A play removes at least one hand card, a scout
trades two token units for one hand card, an enumerated orientation choice
consumes an orientation sub-turn. -/
def game_measure (s : GameState) : Nat :=
  2 * (s.public_state.player_one_scout_token_count
        + s.public_state.player_two_scout_token_count)
    + s.player_one_hidden_state.hand.length
    + s.player_two_hidden_state.hand.length
    + orientation_steps s

/-- The spec's notion of "has a legal move": some sub-range
`hand[i..j)`, `i < j ≤ hand.len()`, both classifies as a card set and
outranks the board. -/
def has_legal_subrange (board hand : List OrientedCard) : Bool :=
  (List.range hand.length).any fun i =>
    (List.range' (i + 1) (hand.length - i)).any fun j =>
      (legal_and_beats_board board ((hand.drop i).take (j - i))).isNone

/-- The claim's end-of-round decision, written from the spec's words over
the post-action state: empty own hand wins; otherwise a player on turn
with no scout tokens and no legal sub-range loses; otherwise the move is
accepted.  (Which player is examined by the stuck-check is whoever holds
the turn in the post-action state.) -/
def end_of_round_spec (s1 : GameState) : TransitionResult :=
  if s1.player_one_hidden_state.hand = [] then build_game_complete s1 true
  else if s1.player_two_hidden_state.hand = [] then build_game_complete s1 false
  else if s1.public_state.is_player_one_turn
      ∧ s1.public_state.player_one_scout_token_count = 0
      ∧ ¬ has_legal_subrange s1.public_state.board
          s1.player_one_hidden_state.hand then
    build_game_complete s1 false
  else if ¬ s1.public_state.is_player_one_turn
      ∧ s1.public_state.player_two_scout_token_count = 0
      ∧ ¬ has_legal_subrange s1.public_state.board
          s1.player_two_hidden_state.hand then
    build_game_complete s1 true
  else .MoveAccepted

/-! ## Concrete example states used by witnesses and counterexamples -/

/-- Shorthand for an oriented card in the example states. -/
def oc (a b : Nat) (o : Orientation) : OrientedCard :=
  { card := { first := a, second := b }, orientation := o }

def ex_hand_one : List OrientedCard := [oc 1 2 .Smaller]

def ex_hand_two : List OrientedCard := [oc 1 9 .Larger]

/-- A mid-game state: orientation chosen, player one to act with one card
and one token, player two holding one card and three tokens, empty board. -/
def ex_state_chosen : GameState :=
  { public_state :=
      { game_complete := false
        orientation_chosen := true
        is_player_one_turn := true
        board := []
        player_one_card_count := 1
        player_two_card_count := 1
        player_one_scout_token_count := 1
        player_two_scout_token_count := 3
        player_one_won_cards := 0
        player_two_won_cards := 0
        action_history := [] }
    player_one_hidden_state := { hand := ex_hand_one }
    player_two_hidden_state := { hand := ex_hand_two } }

/-- `ex_state_chosen` with a two-card `Same(5, 2)` board. -/
def ex_state_board2 : GameState :=
  { ex_state_chosen with
      public_state := { ex_state_chosen.public_state with
        board := [oc 5 9 .Smaller, oc 5 6 .Smaller] } }

/-- A freshly constructed game (orientation not yet chosen). -/
def ex_state_fresh : GameState := new_from_hands ex_hand_one ex_hand_two 0

/-- A finished game (terminal-freeze scenarios). -/
def ex_state_done : GameState :=
  { ex_state_chosen with
      public_state := { ex_state_chosen.public_state with
        game_complete := true } }

/-! ## Deck lemmas (claim C7) -/

/-- The row-major pair enumeration has the full `C(n, 2)` length. -/
theorem deck_pairs_length (n : Nat) : (deck_pairs n).length = n * (n - 1) / 2 := by
  unfold deck_pairs
  rw [List.length_flatMap]
  simp only [Function.comp_def, List.length_map, List.length_range']
  rw [List.range'_eq_map_range, List.map_map]
  have h1 : (List.map ((fun x => n - x) ∘ fun x => 1 + x) (List.range (n - 1))).sum
      = ∑ k ∈ Finset.range (n - 1), (n - (1 + k)) := rfl
  rw [h1]
  have h2 : ∑ k ∈ Finset.range (n - 1), (n - (1 + k))
      = ∑ k ∈ Finset.range (n - 1), ((n - 1) - k) :=
    Finset.sum_congr rfl fun k _ => by omega
  rw [h2]
  have h3 : ∑ k ∈ Finset.range (n - 1), ((n - 1) - k)
      = ∑ k ∈ Finset.range (n - 1), (k + 1) := by
    rw [← Finset.sum_range_reflect]
    exact Finset.sum_congr rfl fun k hk => by
      simp only [Finset.mem_range] at hk; omega
  rw [h3, Finset.sum_add_distrib, Finset.sum_range_id, Finset.sum_const,
    Finset.card_range, smul_eq_mul, mul_one]
  have h4 : n * (n - 1) = (n - 1) * ((n - 1) - 1) + 2 * (n - 1) := by
    cases n with
    | zero => rfl
    | succ m => cases m with
      | zero => rfl
      | succ k => simp [Nat.succ_sub_one]; ring
  omega

/-- `build_deck` always stops exactly at `total_cards` (the truncation
target never exceeds the number of available pairs). -/
theorem build_deck_length (k : Nat) : (build_deck k).length = total_cards k := by
  unfold build_deck
  rw [List.length_take, deck_pairs_length]
  have h1 : k * (k - 1) % 256 ≤ k * (k - 1) := Nat.mod_le _ _
  unfold total_cards
  omega

/-- The truncation target is divisible by four, for every input. -/
theorem total_cards_mod_four (k : Nat) : total_cards k % 4 = 0 := by
  unfold total_cards
  omega

/-- C7 (corrected): the claim quantifies over every `max_num ≥ 4`, but
`build_deck` computes `max_num * (max_num - 1)` in `u8`, which wraps for
`max_num ≥ 17`.  On the wrap-free range `4 ≤ max_num ≤ 16`, `build_deck`
is exactly the row-major enumeration of all pairs `1 ≤ i < j ≤ max_num`
truncated to the largest prefix of length divisible by 4; moreover
`build_deck 10` has 44 cards, `build_deck 4` has 4 cards, and the deck
length is a multiple of 4 for every input. -/
theorem C7_build_deck_row_major (m : Nat) (h4 : 4 ≤ m) (h16 : m ≤ 16) :
    build_deck m = (deck_pairs m).take
        ((deck_pairs m).length - (deck_pairs m).length % 4)
    ∧ (build_deck 10).length = 44
    ∧ (build_deck 4).length = 4
    ∧ ∀ k, (build_deck k).length % 4 = 0 := by
  refine ⟨?_, rfl, rfl, fun k => by rw [build_deck_length]; exact total_cards_mod_four k⟩
  have hle : m * (m - 1) ≤ 255 := by
    have h1 : m - 1 ≤ 15 := by omega
    calc m * (m - 1) ≤ 16 * 15 := Nat.mul_le_mul h16 h1
    _ ≤ 255 := by norm_num
  have hnw : total_cards m = (deck_pairs m).length - (deck_pairs m).length % 4 := by
    rw [deck_pairs_length]
    unfold total_cards
    rw [Nat.mod_eq_of_lt (by omega)]
  rw [build_deck, hnw]

/-- C7 witness: the theorem applied at `max_num = 10`. -/
theorem C7_build_deck_row_major_witness :
    build_deck 10 = (deck_pairs 10).take
        ((deck_pairs 10).length - (deck_pairs 10).length % 4) :=
  (C7_build_deck_row_major 10 (by decide) (by decide)).1

/-- C7 counterexample: at `max_num = 17` the `u8` product `17 * 16 = 272`
wraps to 16, so `build_deck 17` holds only 8 cards, not the 136 the claim
demands — the claim as stated over all `max_num ≥ 4` is false. -/
theorem C7_build_deck_cex :
    (build_deck 17).length = 8
    ∧ (deck_pairs 17).length - (deck_pairs 17).length % 4 = 136
    ∧ build_deck 17 ≠ (deck_pairs 17).take
        ((deck_pairs 17).length - (deck_pairs 17).length % 4) := by
  have hlen : (build_deck 17).length = 8 := by rfl
  have hplen : (deck_pairs 17).length = 136 := by rfl
  refine ⟨hlen, by rw [hplen], fun h => ?_⟩
  have h2 := congrArg List.length h
  rw [List.length_take, hlen, hplen] at h2
  omega

/-! ## CardSet comparator lemmas (claim C6) -/

/-- The classifications `build_card_set` can actually produce: `Same` with
a positive count, `Consecutive` with strictly increasing bounds. -/
def CardSet.Valid : CardSet → Prop
  | .Consecutive start stop => start < stop
  | .Same _ count => 1 ≤ count

/-- Tie-break relation used by `CardSet.cmp` when card counts agree. -/
def key_lt : CardSet → CardSet → Prop
  | .Consecutive s1 _, .Consecutive s2 _ => s1 < s2
  | .Same n1 _, .Same n2 _ => n1 < n2
  | .Consecutive _ _, .Same _ _ => True
  | .Same _ _, .Consecutive _ _ => False

/-- Characterisation of `CardSet.cmp … = .lt`. -/
theorem cmp_lt_iff (a b : CardSet) :
    CardSet.cmp a b = .lt ↔
      (num_cards a < num_cards b ∨ (num_cards a = num_cards b ∧ key_lt a b)) := by
  cases a <;> cases b <;>
    (simp only [CardSet.cmp, key_lt, num_cards]
     split_ifs with h <;>
      simp only [Nat.compare_eq_lt, iff_true, iff_false, not_or, not_and, not_lt,
        reduceCtorEq, false_iff, true_iff, and_false, false_and, or_false, false_or,
        and_true, true_and, not_false_iff, implies_true, iff_self] <;>
      first | rfl | omega)

/-- Characterisation of `CardSet.cmp … = .gt`. -/
theorem cmp_gt_iff (a b : CardSet) :
    CardSet.cmp a b = .gt ↔
      (num_cards b < num_cards a ∨ (num_cards a = num_cards b ∧ key_lt b a)) := by
  cases a <;> cases b <;>
    (simp only [CardSet.cmp, key_lt, num_cards]
     split_ifs with h <;>
      simp only [Nat.compare_eq_gt, iff_true, iff_false, not_or, not_and, not_lt,
        reduceCtorEq, false_iff, true_iff, and_false, false_and, or_false, false_or,
        and_true, true_and, not_false_iff, implies_true, iff_self] <;>
      first | rfl | omega)

/-- Characterisation of `CardSet.cmp … = .eq`. -/
theorem cmp_eq_iff (a b : CardSet) :
    CardSet.cmp a b = .eq ↔
      (num_cards a = num_cards b ∧ ¬ key_lt a b ∧ ¬ key_lt b a) := by
  cases a <;> cases b <;>
    (simp only [CardSet.cmp, key_lt, num_cards]
     split_ifs with h <;>
      simp only [Nat.compare_eq_eq, iff_true, iff_false, not_or, not_and, not_lt,
        not_true, reduceCtorEq, false_iff, true_iff, and_false, false_and, or_false,
        false_or, and_true, true_and, not_false_iff, implies_true, iff_self] <;>
      first | rfl | omega)

/-- The tie-break relation is transitive. -/
theorem key_lt_trans (a b c : CardSet) :
    key_lt a b → key_lt b c → key_lt a c := by
  cases a <;> cases b <;> cases c <;> simp [key_lt] <;> omega

/-- The tie-break relation is irreflexive. -/
theorem key_lt_irrefl (a : CardSet) : ¬ key_lt a a := by
  cases a <;> simp [key_lt]

/-- C6 (confirmed): the `CardSet` comparator is a strict total order on
valid classifications — fewer cards is lesser; equal-size `Consecutive`
compares by start, equal-size `Same` by number; equal-size `Same` beats
equal-size `Consecutive` unconditionally; comparison is reflexive-equal,
asymmetric, transitive, and ties only hold between identical valid sets;
and the spec's concrete examples hold. -/
theorem C6_cardset_strict_total_order :
    (∀ a b : CardSet, num_cards a < num_cards b → CardSet.cmp a b = .lt)
    ∧ (∀ s1 e1 s2 e2 : Nat,
        num_cards (CardSet.Consecutive s1 e1) = num_cards (CardSet.Consecutive s2 e2) →
        CardSet.cmp (CardSet.Consecutive s1 e1) (CardSet.Consecutive s2 e2)
          = compare s1 s2)
    ∧ (∀ n1 c1 n2 c2 : Nat,
        num_cards (CardSet.Same n1 c1) = num_cards (CardSet.Same n2 c2) →
        CardSet.cmp (CardSet.Same n1 c1) (CardSet.Same n2 c2) = compare n1 n2)
    ∧ (∀ n c s e : Nat,
        num_cards (CardSet.Same n c) = num_cards (CardSet.Consecutive s e) →
        CardSet.cmp (CardSet.Same n c) (CardSet.Consecutive s e) = .gt)
    ∧ (∀ a : CardSet, CardSet.cmp a a = .eq)
    ∧ (∀ a b : CardSet, CardSet.cmp a b = .lt ↔ CardSet.cmp b a = .gt)
    ∧ (∀ a b c : CardSet,
        CardSet.cmp a b = .lt → CardSet.cmp b c = .lt → CardSet.cmp a c = .lt)
    ∧ (∀ a b : CardSet, a.Valid → b.Valid → (CardSet.cmp a b = .eq ↔ a = b))
    ∧ CardSet.cmp (CardSet.Consecutive 1 3) (CardSet.Same 5 2) = .gt
    ∧ CardSet.cmp (CardSet.Same 3 2) (CardSet.Same 3 1) = .gt
    ∧ CardSet.cmp (CardSet.Same 3 1) (CardSet.Same 3 1) = .eq := by
  refine ⟨?_, ?_, ?_, ?_, ?_, ?_, ?_, ?_, by decide, by decide, by decide⟩
  · intro a b h
    rw [cmp_lt_iff]
    exact Or.inl h
  · intro s1 e1 s2 e2 h
    simp [CardSet.cmp, h]
  · intro n1 c1 n2 c2 h
    simp [CardSet.cmp, h]
  · intro n c s e h
    simp [CardSet.cmp, h]
  · intro a
    rw [cmp_eq_iff]
    exact ⟨rfl, key_lt_irrefl a, key_lt_irrefl a⟩
  · intro a b
    rw [cmp_lt_iff, cmp_gt_iff]
    constructor <;> rintro (h | ⟨h1, h2⟩)
    · exact Or.inl h
    · exact Or.inr ⟨h1.symm, h2⟩
    · exact Or.inl h
    · exact Or.inr ⟨h1.symm, h2⟩
  · intro a b c h1 h2
    rw [cmp_lt_iff] at h1 h2 ⊢
    rcases h1 with h1 | ⟨h1e, h1k⟩ <;> rcases h2 with h2 | ⟨h2e, h2k⟩
    · exact Or.inl (by omega)
    · exact Or.inl (by omega)
    · exact Or.inl (by omega)
    · exact Or.inr ⟨by omega, key_lt_trans a b c h1k h2k⟩
  · intro a b ha hb
    rw [cmp_eq_iff]
    constructor
    · rintro ⟨h1, h2, h3⟩
      cases a <;> cases b <;>
        simp [key_lt, num_cards, CardSet.Valid] at h1 h2 h3 ha hb ⊢ <;> omega
    · rintro rfl
      exact ⟨rfl, key_lt_irrefl a, key_lt_irrefl a⟩

/-- C6 witness: fewer cards is lesser, applied at `Same(5,2)` versus
`Consecutive(1,3)`. -/
theorem C6_cardset_strict_total_order_witness :
    CardSet.cmp (CardSet.Same 5 2) (CardSet.Consecutive 1 3) = .lt :=
  C6_cardset_strict_total_order.1 (CardSet.Same 5 2) (CardSet.Consecutive 1 3)
    (by decide)

/-! ## Structural lemmas about the transition engine -/

/-- `accept_or_complete` only ever answers accepted or terminal. -/
theorem accept_or_complete_ne_illegal (s : GameState) (r : IllegalMoveReason) :
    accept_or_complete s ≠ .IllegalMove r := by
  unfold accept_or_complete build_game_complete
  split_ifs <;> simp

/-- An orientation choice is always accepted by its handler. -/
theorem handle_orientation_snd (s : GameState) (f : FlipHand) :
    (handle_orientation_action s f).2 = .MoveAccepted := by
  unfold handle_orientation_action
  split_ifs <;> rfl

/-- `handle_play_card_action` either leaves the state untouched or does
not reject. -/
theorem handle_play_card_shape (s : GameState) (i j : Nat) :
    (handle_play_card_action s i j).1 = s
    ∨ ∀ r, (handle_play_card_action s i j).2 ≠ .IllegalMove r := by
  unfold handle_play_card_action
  split_ifs <;> try (left; rfl)
  all_goals try dsimp only
  all_goals repeat' split
  all_goals try (left; rfl)
  all_goals (right; intro r; dsimp only; exact accept_or_complete_ne_illegal _ r)

/-- The scout mutation either leaves the state untouched or does not
reject. -/
theorem handle_scout_core_shape (s : GameState) (p1 : Bool) (pc : PickedCard)
    (idx : Nat) (o : Orientation) :
    (scout_after_token_check s p1 pc idx o).1 = s
    ∨ ∀ r, (scout_after_token_check s p1 pc idx o).2 ≠ .IllegalMove r := by
  unfold scout_after_token_check
  split_ifs <;> try exact Or.inl rfl
  all_goals try dsimp only
  all_goals repeat' split
  all_goals try (left; rfl)
  all_goals (right; intro r; dsimp only; exact accept_or_complete_ne_illegal _ r)

/-- `handle_play_scout_token` either leaves the state untouched or does
not reject. -/
theorem handle_scout_shape (s : GameState) (pc : PickedCard)
    (idx : Nat) (o : Orientation) :
    (handle_play_scout_token s pc idx o).1 = s
    ∨ ∀ r, (handle_play_scout_token s pc idx o).2 ≠ .IllegalMove r := by
  unfold handle_play_scout_token
  split_ifs <;> try (left; rfl)
  all_goals exact handle_scout_core_shape _ _ _ _ _

/-- `handle_action` either leaves the state untouched or does not
reject. -/
theorem handle_action_shape (s : GameState) (a : Action) :
    (handle_action s a).1 = s ∨ ∀ r, (handle_action s a).2 ≠ .IllegalMove r := by
  cases a with
  | ChooseOrientation f =>
    right
    intro r
    rw [show (handle_action s (.ChooseOrientation f)).2
        = (handle_orientation_action s f).2 from rfl, handle_orientation_snd]
    simp
  | PlayCards i j => exact handle_play_card_shape s i j
  | PlayScoutToken pc idx o => exact handle_scout_shape s pc idx o

/-- The logging step forwards an illegal result untouched. -/
theorem log_push_illegal (a : Action) (p : GameState × TransitionResult)
    (r : IllegalMoveReason) (h : p.2 = .IllegalMove r) : log_push a p = p := by
  rcases p with ⟨s1, r1⟩
  cases r1 <;> simp_all [log_push]

/-- The logging step never changes the result. -/
theorem log_push_snd (a : Action) (p : GameState × TransitionResult) :
    (log_push a p).2 = p.2 := by
  rcases p with ⟨s1, r1⟩
  cases r1 <;> rfl

/-- C4 (confirmed): a rejected `transition` leaves the whole `GameState` —
public state, both hands and the action log — unchanged, and once
`game_complete` holds every call returns `IllegalMove(GameComplete)`
without mutating anything.  (The reason always belongs to the closed
`IllegalMoveReason` enumeration by typing.) -/
theorem C4_rejection_atomicity (s : GameState) (a : Action) :
    (∀ r, (transition s a).2 = .IllegalMove r → (transition s a).1 = s)
    ∧ (s.public_state.game_complete = true →
        transition s a = (s, .IllegalMove .GameComplete)) := by
  constructor
  · intro r h
    unfold transition at h ⊢
    split_ifs at h ⊢ with hc
    · rfl
    · rw [log_push_snd] at h
      rw [log_push_illegal a (handle_action s a) r h]
      rcases handle_action_shape s a with h1 | h2
      · exact h1
      · exact absurd h (h2 r)
  · intro hc
    unfold transition
    rw [if_pos hc]

/-- C4 witness: on a finished example state, a play attempt is rejected
with `GameComplete` and the state is returned untouched. -/
theorem C4_rejection_atomicity_witness :
    (transition ex_state_done (.PlayCards 0 1)).1 = ex_state_done
    ∧ transition ex_state_done (.PlayCards 0 1)
        = (ex_state_done, .IllegalMove .GameComplete) :=
  ⟨(C4_rejection_atomicity ex_state_done (.PlayCards 0 1)).1 .GameComplete (by decide),
   (C4_rejection_atomicity ex_state_done (.PlayCards 0 1)).2 (by decide)⟩

/-- C10 (confirmed): whenever the game is not complete — even after the
orientation phase has ended — a choose-orientation action is accepted; it
flips the acting player's whole hand exactly when `DoFlip` was chosen and
passes the turn, and the player-two branch also sets
`orientation_chosen`. -/
theorem C10_choose_orientation_always_accepted (s : GameState) (f : FlipHand)
    (h : s.public_state.game_complete = false) :
    (transition s (.ChooseOrientation f)).2 = .MoveAccepted
    ∧ (s.public_state.is_player_one_turn = true →
        (transition s (.ChooseOrientation f)).1.player_one_hidden_state.hand
          = (match f with
             | .DoFlip => s.player_one_hidden_state.hand.map OrientedCard.flip
             | .DoNotFlip => s.player_one_hidden_state.hand)
        ∧ (transition s (.ChooseOrientation f)).1.public_state.is_player_one_turn = false
        ∧ (transition s (.ChooseOrientation f)).1.public_state.orientation_chosen
            = s.public_state.orientation_chosen
        ∧ (transition s (.ChooseOrientation f)).1.player_two_hidden_state
            = s.player_two_hidden_state)
    ∧ (s.public_state.is_player_one_turn = false →
        (transition s (.ChooseOrientation f)).1.player_two_hidden_state.hand
          = (match f with
             | .DoFlip => s.player_two_hidden_state.hand.map OrientedCard.flip
             | .DoNotFlip => s.player_two_hidden_state.hand)
        ∧ (transition s (.ChooseOrientation f)).1.public_state.is_player_one_turn = true
        ∧ (transition s (.ChooseOrientation f)).1.public_state.orientation_chosen = true
        ∧ (transition s (.ChooseOrientation f)).1.player_one_hidden_state
            = s.player_one_hidden_state) := by
  by_cases ht : s.public_state.is_player_one_turn <;> cases f <;>
    simp [transition, h, handle_action, handle_orientation_action, log_push, ht]

/-- C10 witness: with orientation already chosen, player one's
choose-orientation is still accepted, flips the hand and passes the
turn. -/
theorem C10_choose_orientation_always_accepted_witness :
    ex_state_chosen.public_state.orientation_chosen = true
    ∧ (transition ex_state_chosen (.ChooseOrientation .DoFlip)).2 = .MoveAccepted
    ∧ (transition ex_state_chosen
        (.ChooseOrientation .DoFlip)).1.player_one_hidden_state.hand
        = ex_state_chosen.player_one_hidden_state.hand.map OrientedCard.flip
    ∧ (transition ex_state_chosen
        (.ChooseOrientation .DoFlip)).1.public_state.is_player_one_turn = false :=
  ⟨rfl,
   (C10_choose_orientation_always_accepted ex_state_chosen .DoFlip rfl).1,
   ((C10_choose_orientation_always_accepted ex_state_chosen .DoFlip rfl).2.1 rfl).1,
   ((C10_choose_orientation_always_accepted ex_state_chosen .DoFlip rfl).2.1 rfl).2.1⟩

/-- No handler touches the action log; only `log_push` appends to it. -/
theorem handle_action_history (s : GameState) (a : Action) :
    (handle_action s a).1.public_state.action_history
      = s.public_state.action_history := by
  cases a <;>
    (unfold handle_action handle_orientation_action handle_play_card_action
       handle_play_scout_token scout_after_token_check
     split_ifs <;> try rfl) <;>
    (all_goals try dsimp only
     all_goals repeat' split
     all_goals rfl)

/-- C5 (corrected): a rejected transition appends nothing; an accepted or
terminal transition appends exactly one entry `(flag, action, result)` —
but the flag is the turn flag *after* the handler ran (the next player to
act), not the player who performed the action; a terminal result also
raises `game_complete`. -/
theorem C5_action_log_append (s : GameState) (a : Action) :
    (∀ r, (transition s a).2 = .IllegalMove r →
      (transition s a).1.public_state.action_history
        = s.public_state.action_history)
    ∧ ((transition s a).2 = .MoveAccepted →
      (transition s a).1.public_state.action_history
        = s.public_state.action_history
          ++ [((transition s a).1.public_state.is_player_one_turn, a,
               TransitionResult.MoveAccepted)])
    ∧ (∀ x y, (transition s a).2 = .GameComplete x y →
      (transition s a).1.public_state.action_history
        = s.public_state.action_history
          ++ [((transition s a).1.public_state.is_player_one_turn, a,
               TransitionResult.GameComplete x y)]
      ∧ (transition s a).1.public_state.game_complete = true) := by
  unfold transition
  split_ifs with hc
  · exact ⟨fun r _ => rfl, fun h => by simp at h, fun x y h => by simp at h⟩
  · rcases hh : handle_action s a with ⟨s1, r1⟩
    have hhist : s1.public_state.action_history = s.public_state.action_history := by
      have h0 := handle_action_history s a
      rw [hh] at h0
      exact h0
    cases r1 with
    | MoveAccepted =>
      refine ⟨fun r h => by simp [log_push] at h, fun _ => ?_,
        fun x y h => by simp [log_push] at h⟩
      simp [log_push, hhist]
    | GameComplete x y =>
      refine ⟨fun r h => by simp [log_push] at h, fun h => by simp [log_push] at h,
        fun x1 y1 h => ?_⟩
      simp only [log_push] at h ⊢
      obtain ⟨rfl, rfl⟩ := by simpa using h
      simp [hhist]
    | IllegalMove r0 =>
      exact ⟨fun r _ => by simp [log_push, hhist], fun h => by simp [log_push] at h,
        fun x y h => by simp [log_push] at h⟩

/-- C5 witness: on a fresh example state the accepted orientation action
appends exactly one entry carrying the post-action turn flag. -/
theorem C5_action_log_append_witness :
    (transition ex_state_fresh (.ChooseOrientation .DoNotFlip)).1.public_state.action_history
      = ex_state_fresh.public_state.action_history
        ++ [((transition ex_state_fresh
                (.ChooseOrientation .DoNotFlip)).1.public_state.is_player_one_turn,
             .ChooseOrientation .DoNotFlip, TransitionResult.MoveAccepted)] :=
  (C5_action_log_append ex_state_fresh (.ChooseOrientation .DoNotFlip)).2.1 (by decide)

/-- C5 counterexample: player one performs the first action of a fresh
game (the turn flag reads `true` when they act), yet the logged entry
carries flag `false` — the flag names the next player to act, not the
performer, so the claim's "the flag identifies the player who performed
the action" is false. -/
theorem C5_action_log_cex :
    ex_state_fresh.public_state.is_player_one_turn = true
    ∧ (transition ex_state_fresh (.ChooseOrientation .DoNotFlip)).2 = .MoveAccepted
    ∧ (transition ex_state_fresh
        (.ChooseOrientation .DoNotFlip)).1.public_state.action_history
        = [(false, .ChooseOrientation .DoNotFlip, .MoveAccepted)] := by
  decide

/-! ## Card conservation (claim C8) -/

/-- Logging changes neither hands, board nor won counts. -/
theorem card_inv_log_push (a : Action) (p : GameState × TransitionResult) :
    card_inv (log_push a p).1 = card_inv p.1 := by
  rcases p with ⟨s1, r1⟩
  cases r1 <;> rfl

/-- Every handler conserves the total card count: a play moves `j - i`
cards from hand to board and credits the old board to the won pile; a
scout moves one board card into the hand. -/
theorem card_inv_handle_action (s : GameState) (a : Action) :
    card_inv (handle_action s a).1 = card_inv s := by
  cases a with
  | ChooseOrientation f =>
    unfold handle_action handle_orientation_action
    split_ifs <;> cases f <;> simp [card_inv]
  | PlayCards i j =>
    unfold handle_action handle_play_card_action
    split_ifs <;> try rfl
    all_goals try dsimp only
    all_goals repeat' split
    all_goals try rfl
    all_goals
      (simp only [card_inv, List.length_take, List.length_drop, List.length_append]
       omega)
  | PlayScoutToken pc idx o =>
    unfold handle_action handle_play_scout_token scout_after_token_check
    simp only [card_inv]
    split_ifs <;> try rfl
    all_goals repeat' split
    all_goals try rfl
    all_goals rw [List.length_insertIdx _ _ (by omega)]
    all_goals simp_all [List.length_dropLast, List.length_cons]
    all_goals omega

/-- One `transition` call conserves the total card count. -/
theorem card_inv_transition (s : GameState) (a : Action) :
    card_inv (transition s a).1 = card_inv s := by
  unfold transition
  split_ifs with hc
  · rfl
  · rw [card_inv_log_push, card_inv_handle_action]

/-- `run_actions` conserves the total card count. -/
theorem card_inv_run_actions (acts : List Action) :
    ∀ s : GameState, card_inv (run_actions s acts) = card_inv s := by
  induction acts with
  | nil => intro s; rfl
  | cons a t ih =>
    intro s
    unfold run_actions at ih ⊢
    rw [List.foldl_cons, ih]
    exact card_inv_transition s a

/-- C8 (confirmed): `hand_one.len() + hand_two.len() + board.len() +
won_one + won_two` is preserved by every `transition` call, so along
every action sequence from a dealt game it stays equal to the number of
cards originally dealt into the two hands. -/
theorem C8_conservation :
    (∀ (s : GameState) (a : Action), card_inv (transition s a).1 = card_inv s)
    ∧ ∀ (h1 h2 : List OrientedCard) (t : Nat) (acts : List Action),
        card_inv (run_actions (new_from_hands h1 h2 t) acts)
          = h1.length + h2.length := by
  refine ⟨card_inv_transition, fun h1 h2 t acts => ?_⟩
  rw [card_inv_run_actions]
  simp [card_inv, new_from_hands]

/-! ## Enumerator soundness (claim C1) -/

/-- Any action in the shared `PlayCards` sub-enumeration is a range
`i < j ≤ hand.len()` whose slice passes `legal_and_beats_board`. -/
theorem mem_play_cards_actions {board hand : List OrientedCard} {a : Action}
    (h : a ∈ play_cards_actions board hand) :
    ∃ i j, a = .PlayCards i j ∧ i < j ∧ j ≤ hand.length
      ∧ (legal_and_beats_board board ((hand.drop i).take (j - i))).isNone := by
  unfold play_cards_actions at h
  rw [List.mem_flatMap] at h
  obtain ⟨i, hi, hmem⟩ := h
  rw [List.mem_range] at hi
  rw [List.mem_filterMap] at hmem
  obtain ⟨j, hj, hsome⟩ := hmem
  rw [List.mem_range'] at hj
  refine ⟨i, j, ?_⟩
  split_ifs at hsome with hleg
  cases hsome
  exact ⟨rfl, by omega, by omega, hleg⟩

/-- Any action in the tree-builder scout sub-enumeration is a scout with
insertion index at most the hand length. -/
theorem mem_enumerate_scout_actions {bl hl : Nat} {a : Action}
    (h : a ∈ enumerate_scout_actions bl hl) :
    ∃ pc idx o, a = .PlayScoutToken pc idx o ∧ idx ≤ hl := by
  unfold enumerate_scout_actions at h
  rw [List.mem_flatMap] at h
  obtain ⟨idx, hidx, hmem⟩ := h
  rw [List.mem_range] at hidx
  rw [List.mem_append] at hmem
  rcases hmem with hmem | hmem
  · simp only [List.mem_cons, List.not_mem_nil, or_false] at hmem
    rcases hmem with rfl | rfl
    · exact ⟨_, _, _, rfl, by omega⟩
    · exact ⟨_, _, _, rfl, by omega⟩
  · split_ifs at hmem with hb
    · simp only [List.mem_cons, List.not_mem_nil, or_false] at hmem
      rcases hmem with rfl | rfl
      · exact ⟨_, _, _, rfl, by omega⟩
      · exact ⟨_, _, _, rfl, by omega⟩
    · cases hmem

/-- Any action in the `MoveIter` scout sub-sequence is a scout with
insertion index below the hand length. -/
theorem mem_move_iter_scout_actions {bl hl : Nat} {a : Action}
    (h : a ∈ move_iter_scout_actions bl hl) :
    ∃ pc idx o, a = .PlayScoutToken pc idx o ∧ idx ≤ hl := by
  unfold move_iter_scout_actions at h
  rw [List.mem_filterMap] at h
  obtain ⟨idx, hidx, hsome⟩ := h
  rw [List.mem_range] at hidx
  split_ifs at hsome <;> cases hsome <;> exact ⟨_, _, _, rfl, by omega⟩

/-- A `PlayCards` action within bounds whose slice passes
`legal_and_beats_board` is never rejected. -/
theorem handle_play_card_accepts (s : GameState) (i j : Nat)
    (hor : s.public_state.orientation_chosen = true)
    (hij : i < j) (hjl : j ≤ (acting_hand s).length)
    (hleg : (legal_and_beats_board s.public_state.board
      (((acting_hand s).drop i).take (j - i))).isNone) :
    ∀ r, (handle_play_card_action s i j).2 ≠ .IllegalMove r := by
  intro r
  unfold acting_hand at hjl hleg
  unfold handle_play_card_action
  rw [if_neg (by simp [hor]), if_neg (by omega)]
  dsimp only
  rw [if_neg (by omega)]
  rw [Option.isNone_iff_eq_none] at hleg
  rw [hleg]
  exact accept_or_complete_ne_illegal _ r

/-- A scout action is never rejected when orientation is chosen, the
acting player holds a token, the insertion index is within bounds, and
the board is non-empty. -/
theorem handle_scout_accepts (s : GameState) (pc : PickedCard) (idx : Nat)
    (o : Orientation)
    (hor : s.public_state.orientation_chosen = true)
    (htok : acting_tokens s > 0)
    (hidx : idx ≤ (acting_hand s).length)
    (hboard : s.public_state.board ≠ []) :
    ∀ r, (handle_play_scout_token s pc idx o).2 ≠ .IllegalMove r := by
  intro r
  unfold acting_tokens at htok
  unfold acting_hand at hidx
  unfold handle_play_scout_token
  rw [if_neg (by simp [hor])]
  have hcore : ∀ p1 : Bool,
      (p1 = true → s.public_state.is_player_one_turn = true) →
      (p1 = false → s.public_state.is_player_one_turn = false) →
      (scout_after_token_check s p1 pc idx o).2 ≠ .IllegalMove r := by
    intro p1 hp1t hp1f
    unfold scout_after_token_check
    rw [if_neg (by
      cases p1 with
      | true => simp_all
      | false =>
        have := hp1f rfl
        simp_all)]
    rcases hb : s.public_state.board with _ | ⟨b, bs⟩
    · exact absurd hb hboard
    · dsimp only
      split_ifs <;> exact accept_or_complete_ne_illegal _ r
  split_ifs with ht htok1 htok2
  · exfalso; simp [ht] at htok; omega
  · exact hcore true (fun _ => by simp_all) (fun h => by cases h)
  · exfalso; simp [ht] at htok; omega
  · exact hcore false (fun h => by cases h) (fun _ => by simp_all)

/-- C1 (confirmed): every action produced by either legal-move enumerator
(`enumerate_legal_actions` in `tree_builder.rs`, or the collected outputs
of `MoveIter::next` in `search.rs`) is accepted by `transition` — it never
returns `IllegalMove`. -/
theorem C1_enumeration_soundness (s : GameState) (a : Action)
    (h : a ∈ enumerate_legal_actions s ∨ a ∈ move_iter_actions s) :
    ∀ r, (transition s a).2 ≠ .IllegalMove r := by
  intro r
  by_cases hc : s.public_state.game_complete
  · exfalso
    unfold enumerate_legal_actions move_iter_actions at h
    rw [if_pos hc] at h
    rcases h with h | h <;> simp_all
  · unfold transition
    rw [if_neg hc, log_push_snd]
    by_cases ho : s.public_state.orientation_chosen
    · have hmain : ∀ b : Action,
          (b ∈ play_cards_actions s.public_state.board (acting_hand s)
            ∨ ∃ pc idx o, b = Action.PlayScoutToken pc idx o
                ∧ idx ≤ (acting_hand s).length
                ∧ acting_tokens s > 0 ∧ s.public_state.board ≠ []) →
          (handle_action s b).2 ≠ .IllegalMove r := by
        intro b hb
        rcases hb with hb | ⟨pc, idx, o, rfl, hidx, htok, hboard⟩
        · obtain ⟨i, j, rfl, hij, hjl, hleg⟩ := mem_play_cards_actions hb
          exact handle_play_card_accepts s i j ho hij hjl hleg r
        · exact handle_scout_accepts s pc idx o ho htok hidx hboard r
      rcases h with h | h
      · unfold enumerate_legal_actions at h
        rw [if_neg hc, if_neg (by simp [ho])] at h
        dsimp only at h
        rw [List.mem_append] at h
        rcases h with h | h
        · exact hmain a (Or.inl h)
        · split_ifs at h with hg
          · obtain ⟨pc, idx, o, rfl, hidx⟩ := mem_enumerate_scout_actions h
            exact hmain _ (Or.inr ⟨pc, idx, o, rfl, hidx, by omega, hg.2⟩)
          · cases h
      · unfold move_iter_actions at h
        rw [if_neg hc, if_neg (by simp [ho])] at h
        dsimp only at h
        rw [List.mem_append] at h
        rcases h with h | h
        · exact hmain a (Or.inl h)
        · split_ifs at h with hg
          · cases h
          · push_neg at hg
            obtain ⟨pc, idx, o, rfl, hidx⟩ := mem_move_iter_scout_actions h
            refine hmain _ (Or.inr ⟨pc, idx, o, rfl, hidx, by omega, ?_⟩)
            intro hb
            exact hg.2 (by rw [hb]; rfl)
    · have ha : a = .ChooseOrientation .DoFlip ∨ a = .ChooseOrientation .DoNotFlip := by
        rcases h with h | h <;>
          (first
            | unfold enumerate_legal_actions at h
            | unfold move_iter_actions at h) <;>
          (rw [if_neg hc, if_pos (by simp [ho])] at h
           simpa using h)
      rcases ha with rfl | rfl <;>
        (rw [show (handle_action s (.ChooseOrientation _)).2
            = (handle_orientation_action s _).2 from rfl, handle_orientation_snd]
         simp)

/-- C1 witness: a concrete enumerated scout action on the two-card-board
example state is not rejected. -/
theorem C1_enumeration_soundness_witness :
    (transition ex_state_board2 (.PlayScoutToken .FirstCard 0 .Larger)).2
      ≠ .IllegalMove .BadHandIndex :=
  C1_enumeration_soundness ex_state_board2 (.PlayScoutToken .FirstCard 0 .Larger)
    (Or.inl (by decide)) .BadHandIndex

/-! ## Search termination (claim C9) -/

/-- Dissection of an enumerated action: the game is not complete, and the
action is an orientation choice during the orientation phase, an
in-bounds winning play, or an in-bounds scout backed by a token and a
non-empty board. -/
theorem enumerated_action_cases (s : GameState) (a : Action)
    (h : a ∈ enumerate_legal_actions s ∨ a ∈ move_iter_actions s) :
    s.public_state.game_complete = false
    ∧ ((s.public_state.orientation_chosen = false
          ∧ (a = .ChooseOrientation .DoFlip ∨ a = .ChooseOrientation .DoNotFlip))
      ∨ (s.public_state.orientation_chosen = true
          ∧ ((∃ i j, a = .PlayCards i j ∧ i < j ∧ j ≤ (acting_hand s).length
                ∧ (legal_and_beats_board s.public_state.board
                    (((acting_hand s).drop i).take (j - i))).isNone)
            ∨ (∃ pc idx o, a = .PlayScoutToken pc idx o
                ∧ idx ≤ (acting_hand s).length
                ∧ acting_tokens s > 0 ∧ s.public_state.board ≠ [])))) := by
  by_cases hc : s.public_state.game_complete
  · exfalso
    unfold enumerate_legal_actions move_iter_actions at h
    rw [if_pos hc] at h
    rcases h with h | h <;> simp_all
  · refine ⟨by simp [hc], ?_⟩
    by_cases ho : s.public_state.orientation_chosen
    · refine Or.inr ⟨by simp [ho], ?_⟩
      rcases h with h | h
      · unfold enumerate_legal_actions at h
        rw [if_neg hc, if_neg (by simp [ho])] at h
        dsimp only at h
        rw [List.mem_append] at h
        rcases h with h | h
        · obtain ⟨i, j, rfl, hij, hjl, hleg⟩ := mem_play_cards_actions h
          exact Or.inl ⟨i, j, rfl, hij, hjl, hleg⟩
        · split_ifs at h with hg
          · obtain ⟨pc, idx, o, rfl, hidx⟩ := mem_enumerate_scout_actions h
            exact Or.inr ⟨pc, idx, o, rfl, hidx, by omega, hg.2⟩
          · cases h
      · unfold move_iter_actions at h
        rw [if_neg hc, if_neg (by simp [ho])] at h
        dsimp only at h
        rw [List.mem_append] at h
        rcases h with h | h
        · obtain ⟨i, j, rfl, hij, hjl, hleg⟩ := mem_play_cards_actions h
          exact Or.inl ⟨i, j, rfl, hij, hjl, hleg⟩
        · split_ifs at h with hg
          · cases h
          · push_neg at hg
            obtain ⟨pc, idx, o, rfl, hidx⟩ := mem_move_iter_scout_actions h
            refine Or.inr ⟨pc, idx, o, rfl, hidx, by omega, fun hb => ?_⟩
            exact hg.2 (by rw [hb]; rfl)
    · refine Or.inl ⟨by simp [ho], ?_⟩
      rcases h with h | h <;>
        (first
          | unfold enumerate_legal_actions at h
          | unfold move_iter_actions at h) <;>
        (rw [if_neg hc, if_pos (by simp [ho])] at h
         simpa using h)

/-- Logging does not change the termination measure. -/
theorem game_measure_log_push (a : Action) (p : GameState × TransitionResult) :
    game_measure (log_push a p).1 = game_measure p.1 := by
  rcases p with ⟨s1, r1⟩
  cases r1 <;> simp [log_push, game_measure, orientation_steps]

/-- During the orientation phase, an orientation choice consumes one
orientation sub-turn and changes neither hands nor tokens. -/
theorem orientation_decreases (s : GameState) (f : FlipHand)
    (ho : s.public_state.orientation_chosen = false) :
    game_measure (handle_orientation_action s f).1 < game_measure s := by
  unfold handle_orientation_action
  split_ifs with ht <;> cases f <;>
    simp [game_measure, orientation_steps, ho, ht, List.length_map]

/-- An accepted play removes `j - i ≥ 1` cards from the acting hand. -/
theorem play_decreases (s : GameState) (i j : Nat)
    (hor : s.public_state.orientation_chosen = true)
    (hij : i < j) (hjl : j ≤ (acting_hand s).length)
    (hleg : (legal_and_beats_board s.public_state.board
      (((acting_hand s).drop i).take (j - i))).isNone) :
    game_measure (handle_play_card_action s i j).1 < game_measure s := by
  unfold acting_hand at hjl hleg
  unfold handle_play_card_action
  rw [if_neg (by simp [hor]), if_neg (by omega)]
  dsimp only
  rw [if_neg (by omega)]
  rw [Option.isNone_iff_eq_none] at hleg
  rw [hleg]
  dsimp only
  split_ifs with ht <;>
    (simp [ht] at hjl
     simp [game_measure, orientation_steps, hor, List.length_take,
       List.length_drop, List.length_append]
     omega)

/-- An accepted scout trades two token units for one hand card, a net
decrease of the measure by one. -/
theorem scout_core_decreases (s : GameState) (p1 : Bool) (pc : PickedCard)
    (idx : Nat) (o : Orientation)
    (hidx : idx ≤ (if p1 then s.player_one_hidden_state.hand
                   else s.player_two_hidden_state.hand).length)
    (hboard : s.public_state.board ≠ [])
    (htokp : 0 < (if p1 then s.public_state.player_one_scout_token_count
                  else s.public_state.player_two_scout_token_count)) :
    game_measure (scout_after_token_check s p1 pc idx o).1 < game_measure s := by
  cases p1 <;> simp only [if_true, if_false, Bool.false_eq_true,
    Bool.true_eq_false, reduceIte] at hidx htokp <;>
  · unfold scout_after_token_check
    rw [if_neg (by simp_all)]
    rcases hb : s.public_state.board with _ | ⟨b, bs⟩
    · exact absurd hb hboard
    · dsimp only
      simp only [Bool.false_eq_true, Bool.true_eq_false, reduceIte,
        game_measure, orientation_steps]
      rw [List.length_insertIdx _ _ (by omega)]
      cases pc <;> simp [List.length_dropLast, hb] <;> omega

/-- An accepted scout action decreases the measure. -/
theorem scout_decreases (s : GameState) (pc : PickedCard) (idx : Nat)
    (o : Orientation)
    (hor : s.public_state.orientation_chosen = true)
    (htok : acting_tokens s > 0)
    (hidx : idx ≤ (acting_hand s).length)
    (hboard : s.public_state.board ≠ []) :
    game_measure (handle_play_scout_token s pc idx o).1 < game_measure s := by
  unfold acting_tokens at htok
  unfold acting_hand at hidx
  unfold handle_play_scout_token
  rw [if_neg (by simp [hor])]
  split_ifs with ht htok1 htok2
  · exfalso; simp [ht] at htok; omega
  · refine scout_core_decreases s true pc idx o ?_ hboard ?_
    · simp [ht] at hidx; simpa using hidx
    · simp [ht] at htok; simpa using htok
  · exfalso; simp [ht] at htok; omega
  · refine scout_core_decreases s false pc idx o ?_ hboard ?_
    · simp [ht] at hidx; simpa using hidx
    · simp [ht] at htok; simpa using htok

/-- C9 (corrected): `walk_games` and `build_game_tree` do terminate, and
the reason is that every action either enumerator produces strictly
decreases `2·(total scout tokens) + total hand cards + remaining
orientation sub-turns` once applied; the claim's own justification —
"every accepted action strictly reduces the mover's hand size or the
mover's token count, so no infinite sequence of accepted actions exists"
— is refuted by the counterexample: a choose-orientation action outside
the orientation phase is accepted and reduces neither (it is just never
enumerated). -/
theorem C9_search_termination_measure (s : GameState) (a : Action)
    (h : a ∈ enumerate_legal_actions s ∨ a ∈ move_iter_actions s) :
    game_measure (transition s a).1 < game_measure s := by
  obtain ⟨hc, hcases⟩ := enumerated_action_cases s a h
  unfold transition
  rw [if_neg (by simp [hc]), game_measure_log_push]
  rcases hcases with ⟨ho, hor⟩ | ⟨ho, hpl | hsc⟩
  · rcases hor with rfl | rfl <;>
      (simp only [handle_action]
       exact orientation_decreases s _ ho)
  · obtain ⟨i, j, rfl, hij, hjl, hleg⟩ := hpl
    simp only [handle_action]
    exact play_decreases s i j ho hij hjl hleg
  · obtain ⟨pc, idx, o, rfl, hidx, htok, hb⟩ := hsc
    simp only [handle_action]
    exact scout_decreases s pc idx o ho htok hidx hb

/-- C9 witness: the measure strictly drops for a concrete enumerated scout
action. -/
theorem C9_search_termination_measure_witness :
    game_measure (transition ex_state_board2
      (.PlayScoutToken .FirstCard 0 .Larger)).1 < game_measure ex_state_board2 :=
  C9_search_termination_measure ex_state_board2
    (.PlayScoutToken .FirstCard 0 .Larger) (Or.inl (by decide))

/-- C9 counterexample: with orientation already chosen, a
choose-orientation action is still accepted yet reduces neither player's
hand size nor token count — refuting the claim's "every accepted action
strictly reduces the mover's hand size (play-cards) or the mover's token
count (play-scout-token), so no infinite sequence of accepted actions
exists" (the action can be repeated forever). -/
theorem C9_search_termination_cex :
    (transition ex_state_chosen (.ChooseOrientation .DoNotFlip)).2 = .MoveAccepted
    ∧ (transition ex_state_chosen
        (.ChooseOrientation .DoNotFlip)).1.player_one_hidden_state.hand
        = ex_state_chosen.player_one_hidden_state.hand
    ∧ (transition ex_state_chosen
        (.ChooseOrientation .DoNotFlip)).1.public_state.player_one_scout_token_count
        = ex_state_chosen.public_state.player_one_scout_token_count
    ∧ (transition ex_state_chosen
        (.ChooseOrientation .DoNotFlip)).1.player_two_hidden_state.hand
        = ex_state_chosen.player_two_hidden_state.hand
    ∧ (transition ex_state_chosen
        (.ChooseOrientation .DoNotFlip)).1.public_state.player_two_scout_token_count
        = ex_state_chosen.public_state.player_two_scout_token_count := by
  decide

/-! ## Scout enumeration completeness (claim C2) -/

/-- The tree-builder enumerator does satisfy the claim: every combination
of picked end x orientation x insertion index `0..=hand.len()` is
produced, with take-last present exactly when the board holds more than
one card. -/
theorem enumerate_scout_complete (s : GameState)
    (hc : s.public_state.game_complete = false)
    (ho : s.public_state.orientation_chosen = true)
    (htok : acting_tokens s > 0)
    (hb : s.public_state.board ≠ [])
    (pc : PickedCard) (idx : Nat) (o : Orientation)
    (hidx : idx ≤ (acting_hand s).length)
    (hpc : pc = .FirstCard ∨ s.public_state.board.length > 1) :
    Action.PlayScoutToken pc idx o ∈ enumerate_legal_actions s := by
  unfold enumerate_legal_actions
  rw [if_neg (by simp [hc]), if_neg (by simp [ho])]
  dsimp only
  rw [List.mem_append]
  right
  rw [if_pos ⟨htok, hb⟩]
  unfold enumerate_scout_actions
  rw [List.mem_flatMap]
  refine ⟨idx, by rw [List.mem_range]; omega, ?_⟩
  rw [List.mem_append]
  cases pc with
  | FirstCard => cases o <;> simp
  | LastCard =>
    right
    rw [if_pos (hpc.resolve_left (by simp))]
    cases o <;> simp

/-- C2 (code bug): on a state with orientation chosen, a two-card board,
one scout token and a one-card hand, `enumerate_legal_actions` produces
all eight take-end x orientation x insertion-index scout actions as the
claim demands, but `MoveIter::next` — whose take-last/`Smaller` arm
repeats the `% 4 == 2` guard of the arm before it and is dead, and which
never reaches insertion index `hand.len()` — yields exactly one scout
action, `(FirstCard, 0, Larger)`. -/
theorem C2_scout_enumeration_code_bug :
    ex_state_board2.public_state.orientation_chosen = true
    ∧ ex_state_board2.public_state.board.length = 2
    ∧ acting_tokens ex_state_board2 = 1
    ∧ (acting_hand ex_state_board2).length = 1
    ∧ Action.PlayScoutToken .LastCard 0 .Smaller ∈ enumerate_legal_actions ex_state_board2
    ∧ Action.PlayScoutToken .LastCard 0 .Smaller ∉ move_iter_actions ex_state_board2
    ∧ Action.PlayScoutToken .FirstCard 1 .Larger ∈ enumerate_legal_actions ex_state_board2
    ∧ Action.PlayScoutToken .FirstCard 1 .Larger ∉ move_iter_actions ex_state_board2
    ∧ (move_iter_actions ex_state_board2).filter
        (fun a => match a with | .PlayScoutToken _ _ _ => true | _ => false)
        = [.PlayScoutToken .FirstCard 0 .Larger] := by
  decide

/-! ## End-of-round check (claim C3) -/

/-- The engine's `windows`-based legal-play test agrees with the spec's
sub-range formulation. -/
theorem has_legal_play_eq_subrange (s : GameState) (p1 : Bool) :
    has_legal_play s p1 = has_legal_subrange s.public_state.board
      (if p1 then s.player_one_hidden_state.hand
       else s.player_two_hidden_state.hand) := by
  rw [Bool.eq_iff_iff]
  unfold has_legal_play has_legal_subrange windows
  simp only [List.any_eq_true, List.mem_range, List.mem_range'_1, List.mem_map]
  constructor
  · rintro ⟨w, ⟨h1w, hwlen⟩, wnd, ⟨i, hi, rfl⟩, hleg⟩
    exact ⟨i, by omega, i + w, ⟨by omega, by omega⟩, by
      have hw : i + w - i = w := by omega
      rw [hw]
      exact hleg⟩
  · rintro ⟨i, hi, j, ⟨hij, hjl⟩, hleg⟩
    refine ⟨j - i, ⟨by omega, by omega⟩,
      ((if p1 then s.player_one_hidden_state.hand
        else s.player_two_hidden_state.hand).drop i).take (j - i),
      ⟨i, by omega, rfl⟩, hleg⟩

/-- On a state whose public card counts agree with the hidden hand
lengths, `accept_or_complete` computes exactly the spec's end-of-round
decision. -/
theorem accept_or_complete_spec (s : GameState)
    (hsync1 : s.public_state.player_one_card_count
      = s.player_one_hidden_state.hand.length)
    (hsync2 : s.public_state.player_two_card_count
      = s.player_two_hidden_state.hand.length) :
    accept_or_complete s = end_of_round_spec s := by
  have e1 : (s.public_state.player_one_card_count = 0)
      ↔ (s.player_one_hidden_state.hand = []) := by
    rw [hsync1, List.length_eq_zero]
  have e2 : (s.public_state.player_two_card_count = 0)
      ↔ (s.player_two_hidden_state.hand = []) := by
    rw [hsync2, List.length_eq_zero]
  have e3 : has_legal_play s true
      = has_legal_subrange s.public_state.board s.player_one_hidden_state.hand := by
    rw [has_legal_play_eq_subrange]
    simp
  have e4 : has_legal_play s false
      = has_legal_subrange s.public_state.board s.player_two_hidden_state.hand := by
    rw [has_legal_play_eq_subrange]
    simp
  unfold accept_or_complete end_of_round_spec
  rw [e3, e4]
  exact if_congr e1 rfl (if_congr e2 rfl rfl)

/-- If a `PlayCards` action is not rejected, every engine check passed. -/
theorem handle_play_card_not_illegal (s : GameState) (i j : Nat)
    (hacc : ∀ r, (handle_play_card_action s i j).2 ≠ .IllegalMove r) :
    s.public_state.orientation_chosen = true ∧ i < j
    ∧ j ≤ (acting_hand s).length
    ∧ (legal_and_beats_board s.public_state.board
        (((acting_hand s).drop i).take (j - i))).isNone := by
  have h1 : s.public_state.orientation_chosen = true := by
    by_contra hn
    exact hacc .MustChooseOrientation (by
      unfold handle_play_card_action
      rw [if_pos (by simpa using hn)])
  have h2 : i < j := by
    by_contra hn
    exact hacc .BadHandIndex (by
      unfold handle_play_card_action
      rw [if_neg (by simp [h1]), if_pos (by omega)])
  have h3 : j ≤ (acting_hand s).length := by
    by_contra hn
    unfold acting_hand at hn
    exact hacc .BadHandIndex (by
      unfold handle_play_card_action
      rw [if_neg (by simp [h1]), if_neg (by omega)]
      dsimp only
      rw [if_pos (by omega)])
  refine ⟨h1, h2, h3, ?_⟩
  by_contra hn
  unfold acting_hand at h3 hn
  rcases hr : legal_and_beats_board s.public_state.board
      (((if s.public_state.is_player_one_turn then s.player_one_hidden_state.hand
         else s.player_two_hidden_state.hand).drop i).take (j - i)) with _ | r0
  · rw [hr] at hn
    exact hn rfl
  · exact hacc r0 (by
      unfold handle_play_card_action
      rw [if_neg (by simp [h1]), if_neg (by omega)]
      dsimp only
      rw [if_neg (by omega)]
      rw [hr])

/-- The accepted branch of `handle_play_card_action`: the result is the
end-of-round check on the mutated state, the turn flips to the opponent,
and count/hand synchrony is preserved. -/
theorem handle_play_card_accepted_facts (s : GameState) (i j : Nat)
    (h1 : s.public_state.orientation_chosen = true) (h2 : i < j)
    (h3 : j ≤ (acting_hand s).length)
    (h4 : (legal_and_beats_board s.public_state.board
        (((acting_hand s).drop i).take (j - i))).isNone)
    (hs1 : s.public_state.player_one_card_count
      = s.player_one_hidden_state.hand.length)
    (hs2 : s.public_state.player_two_card_count
      = s.player_two_hidden_state.hand.length) :
    (handle_play_card_action s i j).2
      = accept_or_complete (handle_play_card_action s i j).1
    ∧ (handle_play_card_action s i j).1.public_state.is_player_one_turn
        = ! s.public_state.is_player_one_turn
    ∧ (handle_play_card_action s i j).1.public_state.player_one_card_count
        = (handle_play_card_action s i j).1.player_one_hidden_state.hand.length
    ∧ (handle_play_card_action s i j).1.public_state.player_two_card_count
        = (handle_play_card_action s i j).1.player_two_hidden_state.hand.length := by
  unfold acting_hand at h3 h4
  unfold handle_play_card_action
  rw [if_neg (by simp [h1]), if_neg (by omega)]
  dsimp only
  rw [if_neg (by omega)]
  rw [Option.isNone_iff_eq_none] at h4
  rw [h4]
  dsimp only
  by_cases ht : s.public_state.is_player_one_turn
  · simp only [ht, reduceIte]
    simp [ht] at hs1 h3
    refine ⟨by trivial, by simp, ?_, by simpa using hs2⟩
    simp [List.length_take, List.length_drop, List.length_append]
    omega
  · simp only [ht, reduceIte]
    simp [ht] at hs2 h3
    refine ⟨by trivial, by simp [ht], by simpa using hs1, ?_⟩
    simp [List.length_take, List.length_drop, List.length_append]
    omega

/-- If a scout action is not rejected, every engine check passed. -/
theorem handle_scout_not_illegal (s : GameState) (pc : PickedCard) (idx : Nat)
    (o : Orientation)
    (hacc : ∀ r, (handle_play_scout_token s pc idx o).2 ≠ .IllegalMove r) :
    s.public_state.orientation_chosen = true
    ∧ acting_tokens s > 0
    ∧ idx ≤ (acting_hand s).length
    ∧ s.public_state.board ≠ [] := by
  have h1 : s.public_state.orientation_chosen = true := by
    by_contra hn
    exact hacc .MustChooseOrientation (by
      unfold handle_play_scout_token
      rw [if_pos (by simpa using hn)])
  have h2 : acting_tokens s > 0 := by
    by_contra hn
    unfold acting_tokens at hn
    by_cases ht : s.public_state.is_player_one_turn
    · exact hacc .NoScoutTokens (by
        unfold handle_play_scout_token
        rw [if_neg (by simp [h1]), if_pos ht, if_pos (by simp [ht] at hn; omega)])
    · exact hacc .NoScoutTokens (by
        unfold handle_play_scout_token
        rw [if_neg (by simp [h1]), if_neg ht, if_pos (by simp [ht] at hn; omega)])
  have hcore : ∀ r, s.public_state.is_player_one_turn = true →
      (scout_after_token_check s true pc idx o).2 = .IllegalMove r → False := by
    intro r ht hval
    refine hacc r ?_
    unfold handle_play_scout_token
    rw [if_neg (by simp [h1]), if_pos (by simp [ht]),
      if_neg (by unfold acting_tokens at h2; simp [ht] at h2; omega)]
    exact hval
  have hcore2 : ∀ r, s.public_state.is_player_one_turn = false →
      (scout_after_token_check s false pc idx o).2 = .IllegalMove r → False := by
    intro r ht hval
    refine hacc r ?_
    unfold handle_play_scout_token
    rw [if_neg (by simp [h1]), if_neg (by simp [ht]),
      if_neg (by unfold acting_tokens at h2; simp [ht] at h2; omega)]
    exact hval
  have h3 : idx ≤ (acting_hand s).length := by
    by_contra hn
    unfold acting_hand at hn
    by_cases ht : s.public_state.is_player_one_turn
    · refine hcore .BadHandIndex (by simp [ht]) ?_
      unfold scout_after_token_check
      rw [if_pos (by simp [ht] at hn; simpa using hn)]
    · refine hcore2 .BadHandIndex (by simp_all) ?_
      unfold scout_after_token_check
      rw [if_pos (by simp [ht] at hn; simpa using hn)]
  refine ⟨h1, h2, h3, ?_⟩
  by_contra hn
  unfold acting_hand at h3
  by_cases ht : s.public_state.is_player_one_turn
  · refine hcore .ScoutWhenBoardEmpty (by simp [ht]) ?_
    unfold scout_after_token_check
    rw [if_neg (by simp [ht] at h3 ⊢; omega), hn]
  · refine hcore2 .ScoutWhenBoardEmpty (by simp_all) ?_
    unfold scout_after_token_check
    rw [if_neg (by simp [ht] at h3 ⊢; omega), hn]

/-- The accepted branch of `handle_play_scout_token`: the result is the
end-of-round check on the mutated state, the turn stays with the mover,
and count/hand synchrony is preserved. -/
theorem handle_scout_accepted_facts (s : GameState) (pc : PickedCard) (idx : Nat)
    (o : Orientation)
    (h1 : s.public_state.orientation_chosen = true)
    (h2 : acting_tokens s > 0)
    (h3 : idx ≤ (acting_hand s).length)
    (h4 : s.public_state.board ≠ [])
    (hs1 : s.public_state.player_one_card_count
      = s.player_one_hidden_state.hand.length)
    (hs2 : s.public_state.player_two_card_count
      = s.player_two_hidden_state.hand.length) :
    (handle_play_scout_token s pc idx o).2
      = accept_or_complete (handle_play_scout_token s pc idx o).1
    ∧ (handle_play_scout_token s pc idx o).1.public_state.is_player_one_turn
        = s.public_state.is_player_one_turn
    ∧ (handle_play_scout_token s pc idx o).1.public_state.player_one_card_count
        = (handle_play_scout_token s pc idx o).1.player_one_hidden_state.hand.length
    ∧ (handle_play_scout_token s pc idx o).1.public_state.player_two_card_count
        = (handle_play_scout_token s pc idx o).1.player_two_hidden_state.hand.length := by
  unfold acting_tokens at h2
  unfold acting_hand at h3
  unfold handle_play_scout_token
  rw [if_neg (by simp [h1])]
  by_cases ht : s.public_state.is_player_one_turn
  · rw [if_pos (by simp [ht]), if_neg (by simp [ht] at h2; omega)]
    simp [ht] at h3
    unfold scout_after_token_check
    rw [if_neg (by simpa using h3)]
    rcases hb : s.public_state.board with _ | ⟨b, bs⟩
    · exact absurd hb h4
    · dsimp only
      simp only [reduceIte]
      refine ⟨by trivial, by trivial, ?_, by simpa using hs2⟩
      dsimp only
      rw [List.length_insertIdx _ _ (by omega)]
      omega
  · rw [if_neg (by simp [ht]), if_neg (by simp [ht] at h2; omega)]
    simp [ht] at h3
    unfold scout_after_token_check
    rw [if_neg (by simpa using h3)]
    rcases hb : s.public_state.board with _ | ⟨b, bs⟩
    · exact absurd hb h4
    · dsimp only
      simp only [Bool.false_eq_true, reduceIte]
      refine ⟨by trivial, by trivial, by simpa using hs1, ?_⟩
      dsimp only
      rw [List.length_insertIdx _ _ (by omega)]
      omega

/-- Logging does not change the spec's end-of-round decision (it touches
only the history and the `game_complete` flag). -/
theorem end_of_round_spec_log_push (a : Action) (p : GameState × TransitionResult) :
    end_of_round_spec (log_push a p).1 = end_of_round_spec p.1 := by
  rcases p with ⟨s1, r1⟩
  cases r1 <;> rfl

/-- Logging does not change the turn flag. -/
theorem log_push_turn (a : Action) (p : GameState × TransitionResult) :
    (log_push a p).1.public_state.is_player_one_turn
      = p.1.public_state.is_player_one_turn := by
  rcases p with ⟨s1, r1⟩
  cases r1 <;> rfl

/-- C3 (corrected): after every accepted play-cards or play-scout-token
action the result is the end-of-round decision computed on the
post-action state — empty hands first, then the stuck-check on the player
who holds the turn *after* the action.  For play-cards the turn has
passed to the opponent, matching the claim; for play-scout-token the turn
stays with the mover, so the zero-token/no-sub-range check examines the
mover, not the opponent as the claim states — and when it fires, the
mover's *opponent* wins. -/
theorem C3_end_of_round_check (s : GameState)
    (hsync1 : s.public_state.player_one_card_count
      = s.player_one_hidden_state.hand.length)
    (hsync2 : s.public_state.player_two_card_count
      = s.player_two_hidden_state.hand.length) :
    (∀ i j, (∀ r, (transition s (.PlayCards i j)).2 ≠ .IllegalMove r) →
      (transition s (.PlayCards i j)).2
          = end_of_round_spec (transition s (.PlayCards i j)).1
        ∧ (transition s (.PlayCards i j)).1.public_state.is_player_one_turn
          = ! s.public_state.is_player_one_turn)
    ∧ (∀ pc idx o,
        (∀ r, (transition s (.PlayScoutToken pc idx o)).2 ≠ .IllegalMove r) →
      (transition s (.PlayScoutToken pc idx o)).2
          = end_of_round_spec (transition s (.PlayScoutToken pc idx o)).1
        ∧ (transition s (.PlayScoutToken pc idx o)).1.public_state.is_player_one_turn
          = s.public_state.is_player_one_turn) := by
  constructor
  · intro i j hacc
    have hc : s.public_state.game_complete = false := by
      by_contra hn
      refine hacc .GameComplete ?_
      unfold transition
      rw [if_pos (by simpa using hn)]
    have hacc2 : ∀ r, (handle_play_card_action s i j).2 ≠ .IllegalMove r := by
      intro r hr
      refine hacc r ?_
      unfold transition
      rw [if_neg (by simp [hc]), log_push_snd]
      exact hr
    obtain ⟨h1, h2, h3, h4⟩ := handle_play_card_not_illegal s i j hacc2
    obtain ⟨hco, hturn, hns1, hns2⟩ :=
      handle_play_card_accepted_facts s i j h1 h2 h3 h4 hsync1 hsync2
    constructor
    · unfold transition
      rw [if_neg (by simp [hc]), log_push_snd, end_of_round_spec_log_push]
      show (handle_play_card_action s i j).2
        = end_of_round_spec (handle_play_card_action s i j).1
      rw [hco]
      exact accept_or_complete_spec _ hns1 hns2
    · unfold transition
      rw [if_neg (by simp [hc]), log_push_turn]
      exact hturn
  · intro pc idx o hacc
    have hc : s.public_state.game_complete = false := by
      by_contra hn
      refine hacc .GameComplete ?_
      unfold transition
      rw [if_pos (by simpa using hn)]
    have hacc2 : ∀ r, (handle_play_scout_token s pc idx o).2 ≠ .IllegalMove r := by
      intro r hr
      refine hacc r ?_
      unfold transition
      rw [if_neg (by simp [hc]), log_push_snd]
      exact hr
    obtain ⟨h1, h2, h3, h4⟩ := handle_scout_not_illegal s pc idx o hacc2
    obtain ⟨hco, hturn, hns1, hns2⟩ :=
      handle_scout_accepted_facts s pc idx o h1 h2 h3 h4 hsync1 hsync2
    constructor
    · unfold transition
      rw [if_neg (by simp [hc]), log_push_snd, end_of_round_spec_log_push]
      show (handle_play_scout_token s pc idx o).2
        = end_of_round_spec (handle_play_scout_token s pc idx o).1
      rw [hco]
      exact accept_or_complete_spec _ hns1 hns2
    · unfold transition
      rw [if_neg (by simp [hc]), log_push_turn]
      exact hturn

/-- C3 witness: the theorem applied to a concrete accepted scout action on
the two-card-board example state. -/
theorem C3_end_of_round_check_witness :
    (transition ex_state_board2 (.PlayScoutToken .FirstCard 0 .Smaller)).2
        = end_of_round_spec
          (transition ex_state_board2 (.PlayScoutToken .FirstCard 0 .Smaller)).1
    ∧ (transition ex_state_board2
        (.PlayScoutToken .FirstCard 0 .Smaller)).1.public_state.is_player_one_turn
      = ex_state_board2.public_state.is_player_one_turn :=
  (C3_end_of_round_check ex_state_board2 rfl rfl).2 .FirstCard 0 .Smaller
    (by
      intro r hr
      have hv : (transition ex_state_board2
          (.PlayScoutToken .FirstCard 0 .Smaller)).2 = .GameComplete (-2) 3 := by
        decide
      rw [hv] at hr
      cases hr)

/-- C3 counterexample: player one spends their last token on a scout and
ends up with no legal play; the mover's hand is non-empty and the mover's
opponent still holds 3 tokens and a winning sub-range, so the claim says
the transition returns move-accepted — but the engine checks the *mover*
(whose turn continues after a scout) and ends the game with the opponent
winning, `GameComplete(-2, 3)`. -/
theorem C3_end_of_round_cex :
    (transition ex_state_board2 (.PlayScoutToken .FirstCard 0 .Smaller)).2
      = .GameComplete (-2) 3
    ∧ (transition ex_state_board2 (.PlayScoutToken .FirstCard 0 .Smaller)).2
      ≠ .MoveAccepted
    ∧ (transition ex_state_board2
        (.PlayScoutToken .FirstCard 0 .Smaller)).1.player_one_hidden_state.hand ≠ []
    ∧ (transition ex_state_board2
        (.PlayScoutToken .FirstCard 0 .Smaller)).1.player_two_hidden_state.hand ≠ []
    ∧ ex_state_board2.public_state.player_two_scout_token_count = 3
    ∧ has_legal_subrange
        (transition ex_state_board2
          (.PlayScoutToken .FirstCard 0 .Smaller)).1.public_state.board
        (transition ex_state_board2
          (.PlayScoutToken .FirstCard 0 .Smaller)).1.player_two_hidden_state.hand
      = true := by
  decide

end Scout
